import Mathlib

/-!
Verification of the block extraction and alignment engine of the
amazon-comprehend-semi-structured-documents-annotation-tools repository.

The Python sources embedded here (shallowly) are:
  * `src/src/utils/block_helper.py` — geometry model (`BoundingBox`, `Point`,
    `get_points`, `extend_polygon`, `Geometry`, `Relationship`, `Block`) and
    the JSON serialization hook `DictionaryClass.reprJSON` / `JSONHandler`;
  * `src/src/lambdas/pre_human_task_lambda.py` — `is_scanned_pdf`,
    `get_pdf_blocks`, `get_geometry_from_plumber_word`,
    `plumber_line_to_blocks`, `blocks_from_native_pdf`,
    `textract_block_to_block_relationship`, `textract_block_to_block`,
    `blocks_from_scanned_pdf`;
  * `src/src/lambdas/annotation_consolidation_lambda.py` —
    `remove_block_indices_from_blocks`.

Modelling conventions:
  * Python floats are embedded as rationals (`ℚ`); the code performs only
    field arithmetic and comparisons on them.
  * Python strings are embedded as `List Char`; `s[i:]` is `List.drop i s`,
    `s.find(t)` is `findSub t s`, `' '.join(ws)` is `spaceJoin ws`.
  * Python exceptions are embedded as `Except Unit`; a `try/except` block is
    a `match` on the `Except` value.
  * `uuid.uuid4()` is embedded as a deterministic fresh-id supply keyed by
    the (unique, sequential) construction index of the block being built;
    the claims below never depend on the shape of a freshly minted id.
  * The unbounded `while` loop of `blocks_from_native_pdf` is embedded as a
    fuel-indexed iteration `alignLoop`; the termination claim C2 is proved
    by showing an explicit fuel bound after which the loop condition is
    false with every token consumed.
-/

/-- Python `str.find` on the remainder lists: first index at which `needle`
occurs as a contiguous sublist of `hay`, `none` when absent (Python `-1`).
Like Python, the empty needle is found at index 0. -/
def findSub (needle : List Char) : List Char → Option Nat
  | [] => if needle.isPrefixOf ([] : List Char) then some 0 else none
  | c :: t =>
    if needle.isPrefixOf (c :: t) then some 0
    else (findSub needle t).map (· + 1)

/-- Python `' '.join(ws)`. -/
def spaceJoin (ws : List (List Char)) : List Char :=
  List.intercalate [' '] ws

/-- `block_helper.BoundingBox.__init__` (fields `Width`, `Top`, `Left`,
`Height`). -/
structure BoundingBox where
  Width : ℚ
  Height : ℚ
  Left : ℚ
  Top : ℚ
deriving DecidableEq, Repr

/-- `block_helper.BoundingBox.extend_bounding_box`: mutates `self` in the
source; embedded as returning the updated box.  Width and Height are set to
`abs (min left - max right)` computed from the pre-update fields, then Left
and Top are lowered to the other box's values when larger. -/
def extend_bounding_box (self bounding_box : BoundingBox) : BoundingBox :=
  let selfRight := self.Left + self.Width
  let selfBottom := self.Top + self.Height
  let bbRight := bounding_box.Left + bounding_box.Width
  let bbBottom := bounding_box.Top + bounding_box.Height
  { Width := |min self.Left bounding_box.Left - max selfRight bbRight|
    Height := |min self.Top bounding_box.Top - max selfBottom bbBottom|
    Left := if self.Left > bounding_box.Left then bounding_box.Left else self.Left
    Top := if self.Top > bounding_box.Top then bounding_box.Top else self.Top }

/-- `block_helper.Point`. -/
structure Point where
  X : ℚ
  Y : ℚ
deriving DecidableEq, Repr

/-- `block_helper.get_points`: the four corners of a boundary, in order
top-left, top-right, bottom-right, bottom-left. -/
def get_points (width height left top : ℚ) : List Point :=
  [⟨left, top⟩, ⟨left + width, top⟩, ⟨left + width, top + height⟩, ⟨left, top + height⟩]

/-- `block_helper.extend_polygon`: reconstructs a bounding box from corners 0
and 2 of each polygon, extends the first by the second and regenerates the
four corner points.  Python would raise `IndexError` on polygons shorter than
3 points; every polygon built by this code has exactly 4 points, and the
embedding totalizes the corner accesses with `List.getD`. -/
def extend_polygon (polygon1 polygon2 : List Point) : List Point :=
  let p10 := polygon1.getD 0 ⟨0, 0⟩
  let p12 := polygon1.getD 2 ⟨0, 0⟩
  let p20 := polygon2.getD 0 ⟨0, 0⟩
  let p22 := polygon2.getD 2 ⟨0, 0⟩
  let bounding_box_1 : BoundingBox := ⟨p12.X - p10.X, p12.Y - p10.Y, p10.X, p10.Y⟩
  let bounding_box_2 : BoundingBox := ⟨p22.X - p20.X, p22.Y - p20.Y, p20.X, p20.Y⟩
  let extended := extend_bounding_box bounding_box_1 bounding_box_2
  get_points extended.Width extended.Height extended.Left extended.Top

/-- `block_helper.Geometry`: a bounding box plus its four-corner polygon. -/
structure Geometry where
  BoundingBox : BoundingBox
  Polygon : List Point
deriving DecidableEq, Repr

/-- `block_helper.Geometry.__init__`. -/
def Geometry.init (width height left top : ℚ) : Geometry :=
  { BoundingBox := ⟨width, height, left, top⟩
    Polygon := get_points width height left top }

/-- `block_helper.Geometry.extend_geometry`: extends the bounding box via
`extend_bounding_box` and the polygon via `extend_polygon`. -/
def extend_geometry (self geometry : Geometry) : Geometry :=
  { BoundingBox := extend_bounding_box self.BoundingBox geometry.BoundingBox
    Polygon := extend_polygon self.Polygon geometry.Polygon }

/-- `block_helper.Relationship`: an ordered id list and a type tag (the
source stores the tag in attribute `Type`, which is not a legal Lean field
name). -/
structure Relationship where
  Ids : List String
  Type' : String
deriving DecidableEq, Repr

/-- Alias so that the `Block` field named `Geometry` can refer to the
`Geometry` type from inside the structure declaration. -/
abbrev GeometryT := Geometry

/-- `block_helper.Block`: attributes in the order `__init__` assigns them. -/
structure Block where
  BlockType : String
  Id : String
  Text : List Char
  Geometry : Option GeometryT
  Relationships : List Relationship
  Page : Nat
  parentBlockIndex : Int
  blockIndex : Int
deriving DecidableEq, Repr

/-- `uuid.uuid4()` of `Block.__init__`, embedded as a deterministic supply
keyed by the block's construction index (block indices are sequential and
unique within one page-processing invocation, so minted ids are distinct). -/
def mintId (index : Int) : String :=
  "uuid-" ++ toString index

/-- `block_helper.Block.__init__`. -/
def Block.init (page : Nat) (block_type : String) (text : List Char) (index : Int)
    (geometry : Option GeometryT) (parent_block_index : Int) : Block :=
  { BlockType := block_type
    Id := mintId index
    Text := text
    Geometry := geometry
    Relationships := []
    Page := page
    parentBlockIndex := parent_block_index
    blockIndex := index }

/-- `block_helper.Block.extend_geometry`: deep-copies the argument when the
block has no geometry yet, otherwise delegates to `Geometry.extend_geometry`. -/
def Block.extendGeometry (self : Block) (geometry : GeometryT) : Block :=
  match self.Geometry with
  | none => { self with Geometry := some geometry }
  | some cur => { self with Geometry := some (extend_geometry cur geometry) }

/-- Containment of bounding boxes: `A` contains `B` entirely. -/
def containsBox (A B : BoundingBox) : Prop :=
  A.Left ≤ B.Left ∧ A.Top ≤ B.Top ∧
  B.Left + B.Width ≤ A.Left + A.Width ∧ B.Top + B.Height ≤ A.Top + A.Height

/-- Claim C3: for bounding boxes `A`, `B` with nonnegative `Width` and
`Height`, `extend_bounding_box A B` is the minimal box covering both:
its fields are exactly `min`/`max` of the inputs' edges, it contains `A`
and `B` entirely, and every box containing `A` and `B` contains it. -/
theorem extend_bounding_box_is_minimal_union (A B : BoundingBox)
    (hAW : 0 ≤ A.Width) (hAH : 0 ≤ A.Height) (hBW : 0 ≤ B.Width) (hBH : 0 ≤ B.Height) :
    (extend_bounding_box A B).Left = min A.Left B.Left ∧
    (extend_bounding_box A B).Top = min A.Top B.Top ∧
    (extend_bounding_box A B).Width
      = max (A.Left + A.Width) (B.Left + B.Width) - min A.Left B.Left ∧
    (extend_bounding_box A B).Height
      = max (A.Top + A.Height) (B.Top + B.Height) - min A.Top B.Top ∧
    containsBox (extend_bounding_box A B) A ∧
    containsBox (extend_bounding_box A B) B ∧
    ∀ C : BoundingBox, containsBox C A → containsBox C B →
      containsBox C (extend_bounding_box A B) := by
  have hleft : (extend_bounding_box A B).Left = min A.Left B.Left := by
    simp only [extend_bounding_box, min_def]
    split_ifs with h1 h2 h2 <;> linarith
  have htop : (extend_bounding_box A B).Top = min A.Top B.Top := by
    simp only [extend_bounding_box, min_def]
    split_ifs with h1 h2 h2 <;> linarith
  have hwsub : min A.Left B.Left ≤ max (A.Left + A.Width) (B.Left + B.Width) := by
    calc min A.Left B.Left ≤ A.Left := min_le_left _ _
    _ ≤ A.Left + A.Width := by linarith
    _ ≤ max (A.Left + A.Width) (B.Left + B.Width) := le_max_left _ _
  have hhsub : min A.Top B.Top ≤ max (A.Top + A.Height) (B.Top + B.Height) := by
    calc min A.Top B.Top ≤ A.Top := min_le_left _ _
    _ ≤ A.Top + A.Height := by linarith
    _ ≤ max (A.Top + A.Height) (B.Top + B.Height) := le_max_left _ _
  have hwidth : (extend_bounding_box A B).Width
      = max (A.Left + A.Width) (B.Left + B.Width) - min A.Left B.Left := by
    show |min A.Left B.Left - max (A.Left + A.Width) (B.Left + B.Width)| = _
    rw [abs_sub_comm, abs_of_nonneg (by linarith)]
  have hheight : (extend_bounding_box A B).Height
      = max (A.Top + A.Height) (B.Top + B.Height) - min A.Top B.Top := by
    show |min A.Top B.Top - max (A.Top + A.Height) (B.Top + B.Height)| = _
    rw [abs_sub_comm, abs_of_nonneg (by linarith)]
  refine ⟨hleft, htop, hwidth, hheight, ?_, ?_, ?_⟩
  · simp only [containsBox, hleft, htop, hwidth, hheight]
    refine ⟨min_le_left _ _, min_le_left _ _, ?_, ?_⟩
    · linarith [le_max_left (A.Left + A.Width) (B.Left + B.Width)]
    · linarith [le_max_left (A.Top + A.Height) (B.Top + B.Height)]
  · simp only [containsBox, hleft, htop, hwidth, hheight]
    refine ⟨min_le_right _ _, min_le_right _ _, ?_, ?_⟩
    · linarith [le_max_right (A.Left + A.Width) (B.Left + B.Width)]
    · linarith [le_max_right (A.Top + A.Height) (B.Top + B.Height)]
  · intro C hCA hCB
    obtain ⟨ca1, ca2, ca3, ca4⟩ := hCA
    obtain ⟨cb1, cb2, cb3, cb4⟩ := hCB
    simp only [containsBox, hleft, htop, hwidth, hheight]
    refine ⟨le_min ca1 cb1, le_min ca2 cb2, ?_, ?_⟩
    · linarith [max_le ca3 cb3]
    · linarith [max_le ca4 cb4]

/-- Witness for C3 at concrete boxes. -/
theorem extend_bounding_box_is_minimal_union_witness :
    (0:ℚ) ≤ 2 ∧
    containsBox (extend_bounding_box ⟨2, 1, 0, 0⟩ ⟨3, 4, 1, 2⟩) ⟨3, 4, 1, 2⟩ :=
  ⟨by norm_num,
   (extend_bounding_box_is_minimal_union ⟨2, 1, 0, 0⟩ ⟨3, 4, 1, 2⟩
      (by norm_num) (by norm_num) (by norm_num) (by norm_num)).2.2.2.2.2.1⟩

/-- A PDFPlumber word token: text fragment plus absolute pixel-space
position (`pre_human_task_lambda` reads keys `text`, `x0`, `x1`, `top`,
`bottom`). -/
structure Token where
  text : List Char
  x0 : ℚ
  x1 : ℚ
  top : ℚ
  bottom : ℚ
deriving DecidableEq, Repr

/-- `pre_human_task_lambda.get_geometry_from_plumber_word`. -/
def get_geometry_from_plumber_word (word : Token) (page_width page_height : ℚ) : Geometry :=
  Geometry.init (|word.x0 - word.x1| / page_width) (|word.top - word.bottom| / page_height)
    (word.x0 / page_width) (word.top / page_height)

/-- Body of the word loop of `pre_human_task_lambda.plumber_line_to_blocks`:
one step builds the next WORD block, collects its id, extends the LINE
geometry accumulator (`Block.extend_geometry`: deep copy on first word) and
advances the running block index. -/
def plumber_word_step (page : Nat) (page_width page_height : ℚ) (lineIndex : Int)
    (acc : List Block × List String × Option Geometry × Int) (w : Token) :
    List Block × List String × Option Geometry × Int :=
  let bi := acc.2.2.2 + 1
  let g := get_geometry_from_plumber_word w page_width page_height
  let block_word := Block.init page "WORD" w.text bi (some g) lineIndex
  (acc.1 ++ [block_word], acc.2.1 ++ [block_word.Id],
    some (match acc.2.2.1 with
          | none => g
          | some cur => extend_geometry cur g), bi)

/-- `pre_human_task_lambda.plumber_line_to_blocks`: builds one LINE block
(text: space-join of the tokens' text fragments) followed by one WORD block
per token; the LINE's CHILD relationship collects the WORD ids in order. -/
def plumber_line_to_blocks (page : Nat) (plumber_line : List Token) (block_index : Int)
    (page_width page_height : ℚ) : List Block × Int :=
  let lineIndex := block_index + 1
  let folded := plumber_line.foldl (plumber_word_step page page_width page_height lineIndex)
    ([], [], none, lineIndex)
  let block_line : Block :=
    { BlockType := "LINE"
      Id := mintId lineIndex
      Text := spaceJoin (plumber_line.map Token.text)
      Geometry := folded.2.2.1
      Relationships := [⟨folded.2.1, "CHILD"⟩]
      Page := page
      parentBlockIndex := -1
      blockIndex := lineIndex }
  (block_line :: folded.1, folded.2.2.2)

/-- Cursor state of the two-cursor merge loop of
`pre_human_task_lambda.blocks_from_native_pdf`: `lineIndex`/`wordIndex` walk
the flowing-text line words, `wordSub` is `word_sub_search_index`,
`tokenIdx` is `token_block_list_idx`, `tokenSub` is
`token_sub_search_index`; `plumberLine` accumulates the tokens of the
in-progress output line and `plumberText` the finished lines-of-tokens.
`lineWords` caches `lines[line_index].split()` exactly as the Python local
`line_words` does. -/
structure AlignState where
  lineIndex : Nat
  lineWords : List (List Char)
  wordIndex : Nat
  wordSub : Nat
  tokenIdx : Nat
  tokenSub : Nat
  plumberText : List (List Token)
  plumberLine : List Token
deriving Repr

/-- One iteration of the merge loop body of `blocks_from_native_pdf`
(source lines 144–183).  `lines` is the list of per-line word lists (each
Python line given by `lines[i].split()`); `words` is the token list.  The
out-of-range accesses `words[token_block_list_idx]` and
`line_words[word_index]` are totalized with `List.getD`; the loop invariants
keep both indices in range. -/
def alignStep (lines : List (List (List Char))) (words : List Token) (st : AlignState) :
    AlignState :=
  let token := words.getD st.tokenIdx ⟨[], 0, 0, 0, 0⟩
  let curWord := st.lineWords.getD st.wordIndex []
  match findSub (token.text.drop st.tokenSub) (curWord.drop st.wordSub) with
  | some off =>
    let wordSub :=
      if curWord.drop st.wordSub = token.text.take st.tokenSub then curWord.length
      else st.wordSub + off + (token.text.drop st.tokenSub).length
    let st := { st with plumberLine := st.plumberLine ++ [token] }
    let st :=
      if wordSub = curWord.length then
        if st.wordIndex < st.lineWords.length - 1 then
          { st with wordIndex := st.wordIndex + 1, wordSub := 0 }
        else if st.lineIndex < lines.length - 1 then
          { st with lineIndex := st.lineIndex + 1
                    lineWords := lines.getD (st.lineIndex + 1) []
                    wordIndex := 0
                    plumberText := st.plumberText ++ [st.plumberLine]
                    plumberLine := []
                    wordSub := 0 }
        else { st with wordSub := 0 }
      else { st with wordSub := wordSub }
    { st with tokenIdx := st.tokenIdx + 1, tokenSub := 0 }
  | none =>
    let st := { st with tokenSub := st.tokenSub + curWord.length }
    if st.wordIndex < st.lineWords.length - 1 then
      { st with wordIndex := st.wordIndex + 1 }
    else if st.lineIndex < lines.length - 1 then
      { st with lineIndex := st.lineIndex + 1
                lineWords := lines.getD (st.lineIndex + 1) []
                wordIndex := 0
                plumberText := if st.plumberLine = [] then st.plumberText
                               else st.plumberText ++ [st.plumberLine]
                plumberLine := [] }
    else st

/-- The `while token_block_list_idx < len(words)` loop of
`blocks_from_native_pdf`, indexed by fuel (the Python loop is unbounded;
`alignLoop_consumes_all_tokens` below exhibits fuel after which the loop
condition is false). -/
def alignLoop (lines : List (List (List Char))) (words : List Token) :
    Nat → AlignState → AlignState
  | 0, st => st
  | fuel + 1, st =>
    if st.tokenIdx < words.length then
      alignLoop lines words fuel (alignStep lines words st)
    else st

/-- Initial cursor state of the merge loop. -/
def alignInit (lines : List (List (List Char))) : AlignState :=
  { lineIndex := 0
    lineWords := lines.getD 0 []
    wordIndex := 0
    wordSub := 0
    tokenIdx := 0
    tokenSub := 0
    plumberText := []
    plumberLine := [] }

/-- Maximum token-text length of a token list. -/
def maxTokLen (words : List Token) : Nat :=
  words.foldr (fun t m => max t.text.length m) 0

/-- Fuel sufficient for the merge loop to consume every token: between two
consecutive `tokenIdx` increments, `tokenSub` grows by at least one per
iteration and is capped by the token text length, so the loop runs at most
`len(words) * (maxTokLen + 2)` iterations. -/
def fuelBound (words : List Token) : Nat :=
  words.length * (maxTokLen words + 2) + (maxTokLen words + 2)

/-- The accumulated lines-of-tokens (`plumber_text`) produced by the merge
loop of `blocks_from_native_pdf`, including the flush of a non-empty
trailing `plumber_line` after the loop. -/
def alignTokens (lines : List (List (List Char))) (words : List Token) : List (List Token) :=
  let stF := alignLoop lines words (fuelBound words) (alignInit lines)
  if stF.plumberLine = [] then stF.plumberText else stF.plumberText ++ [stF.plumberLine]

/-- Body of the output-construction loop of `blocks_from_native_pdf`: one
accumulated line-of-tokens is turned into blocks by `plumber_line_to_blocks`
threading the running block index. -/
def native_line_fold (page_num : Nat) (page_width page_height : ℚ)
    (acc : List Block × Int) (pl : List Token) : List Block × Int :=
  let res := plumber_line_to_blocks page_num pl acc.2 page_width page_height
  (acc.1 ++ res.1, res.2)

/-- `pre_human_task_lambda.blocks_from_native_pdf`, embedded over the
already-extracted inputs: `lines` is the flowing text extraction as the
whitespace-split word list of each non-empty stripped line (the source's
`[l.strip() for l in text.split] → l.split()`), `words` the positioned token
list from `extract_words()`.  Empty `lines` yields no blocks (`if lines:`);
otherwise each accumulated line-of-tokens is turned into blocks by
`plumber_line_to_blocks` with the running block index starting at `-1`. -/
def blocks_from_native_pdf (page_num : Nat) (lines : List (List (List Char)))
    (words : List Token) (page_width page_height : ℚ) : List Block :=
  if lines = [] then []
  else ((alignTokens lines words).foldl (native_line_fold page_num page_width page_height)
    ([], -1)).1

/-- Every block accumulated by the word loop of `plumber_line_to_blocks` is
a WORD block (given that the accumulator starts that way). -/
theorem plumber_word_step_all_word (page : Nat) (pw ph : ℚ) (lineIndex : Int)
    (pl : List Token) (acc : List Block × List String × Option Geometry × Int)
    (hacc : ∀ b ∈ acc.1, b.BlockType = "WORD") :
    ∀ b ∈ (pl.foldl (plumber_word_step page pw ph lineIndex) acc).1, b.BlockType = "WORD" := by
  induction pl generalizing acc with
  | nil => exact hacc
  | cons w ws ih =>
    refine ih _ ?_
    intro b hb
    simp only [plumber_word_step, List.mem_append, List.mem_singleton] at hb
    rcases hb with hb | hb
    · exact hacc b hb
    · subst hb; rfl

/-- The block list of `plumber_line_to_blocks` is a LINE block whose text is
the space-join of the tokens' text fragments, followed by WORD blocks only. -/
theorem plumber_line_to_blocks_line_texts (page : Nat) (pl : List Token) (bi : Int)
    (pw ph : ℚ) :
    ((plumber_line_to_blocks page pl bi pw ph).1.filter
        (fun b => b.BlockType == "LINE")).map Block.Text
      = [spaceJoin (pl.map Token.text)] := by
  have hwords := plumber_word_step_all_word page pw ph (bi + 1) pl ([], [], none, bi + 1)
    (by intro b hb; simp at hb)
  simp only [plumber_line_to_blocks, List.filter_cons]
  have hnone :
      (pl.foldl (plumber_word_step page pw ph (bi + 1)) ([], [], none, bi + 1)).1.filter
        (fun b => b.BlockType == "LINE") = [] := by
    rw [List.filter_eq_nil]
    intro b hb
    simp [hwords b hb]
  simp [hnone]

/-- Claim C1 (amended): the LINE blocks emitted by `blocks_from_native_pdf`
carry, in order, the space-joined concatenation of the position-tokens' text
fragments accumulated for each output line — not the space-join of the
flowing-text line's own word list. -/
theorem native_line_block_texts (page_num : Nat) (lines : List (List (List Char)))
    (words : List Token) (pw ph : ℚ) :
    ((blocks_from_native_pdf page_num lines words pw ph).filter
        (fun b => b.BlockType == "LINE")).map Block.Text
      = if lines = [] then []
        else (alignTokens lines words).map (fun pl => spaceJoin (pl.map Token.text)) := by
  have key : ∀ (gs : List (List Token)) (acc : List Block × Int),
      ((gs.foldl (native_line_fold page_num pw ph) acc).1.filter
          (fun b => b.BlockType == "LINE")).map Block.Text
        = ((acc.1.filter (fun b => b.BlockType == "LINE")).map Block.Text)
            ++ gs.map (fun pl => spaceJoin (pl.map Token.text)) := by
    intro gs
    induction gs with
    | nil => intro acc; simp
    | cons g gs ih =>
      intro acc
      rw [List.foldl_cons, ih]
      have : ((native_line_fold page_num pw ph acc g).1.filter
          (fun b => b.BlockType == "LINE")).map Block.Text
        = (acc.1.filter (fun b => b.BlockType == "LINE")).map Block.Text
            ++ [spaceJoin (g.map Token.text)] := by
        simp only [native_line_fold, List.filter_append, List.map_append]
        rw [plumber_line_to_blocks_line_texts]
      rw [this, List.map_cons, List.append_assoc]
      rfl
  unfold blocks_from_native_pdf
  split
  · simp
  · rw [key]
    simp

/-- Claim C1 (counterexample): on the page whose flowing-text extraction is
the single line "ab" (one line-word) and whose position tokens are "a" then
"b", the emitted LINE block's text is "a b" — the space-join of the
accumulated tokens' fragments — while the space-join of the line's own word
list is "ab"; the claim as stated predicts "ab". -/
theorem native_line_block_text_not_line_words :
    ((blocks_from_native_pdf 1 [[['a', 'b']]]
        [⟨['a'], 0, 0, 0, 0⟩, ⟨['b'], 0, 0, 0, 0⟩] 1 1).filter
        (fun b => b.BlockType == "LINE")).map Block.Text = [['a', ' ', 'b']]
    ∧ ([[['a', 'b']]] : List (List (List Char))).map (fun lw => spaceJoin lw) = [['a', 'b']]
    ∧ (['a', ' ', 'b'] : List Char) ≠ ['a', 'b'] := by
  refine ⟨by decide, by decide, by decide⟩

/-- Loop invariant of the merge loop: the token cursor is within bounds, the
line cursor is within bounds, the cached `lineWords` agrees with the current
line, and the word cursor is within the current line's word list. -/
def alignInv (lines : List (List (List Char))) (words : List Token) (st : AlignState) : Prop :=
  st.tokenIdx ≤ words.length ∧
  st.lineIndex < lines.length ∧
  st.lineWords = lines.getD st.lineIndex [] ∧
  st.wordIndex < st.lineWords.length

/-- `findSub` finds the empty needle at index 0 (Python `s.find('') == 0`). -/
theorem findSub_nil (hay : List Char) : findSub [] hay = some 0 := by
  cases hay <;> rfl

/-- When `findSub` fails, the needle is non-empty. -/
theorem findSub_none_ne_nil {needle hay : List Char} (h : findSub needle hay = none) :
    needle ≠ [] := by
  intro hn
  subst hn
  rw [findSub_nil] at h
  cases h

/-- Every member's text length is bounded by `maxTokLen`. -/
theorem text_length_le_maxTokLen {words : List Token} {t : Token} (ht : t ∈ words) :
    t.text.length ≤ maxTokLen words := by
  induction words with
  | nil => cases ht
  | cons w ws ih =>
    rcases List.mem_cons.mp ht with h | h
    · subst h; exact le_max_left _ _
    · exact le_trans (ih h) (le_max_right _ _)

/-- In-bounds `getD` yields a member. -/
theorem getD_mem_of_lt {α : Type} {l : List α} {i : Nat} {d : α} (h : i < l.length) :
    l.getD i d ∈ l := by
  rw [List.getD_eq_getElem _ _ h]
  exact List.getElem_mem _

/-- Termination measure of the merge loop: decreases at every iteration
while tokens remain. -/
def alignMeasure (words : List Token) (st : AlignState) : Nat :=
  (words.length - st.tokenIdx) * (maxTokLen words + 2)
    + (maxTokLen words + 1 - min st.tokenSub (maxTokLen words + 1))

/-- One iteration of the merge loop preserves the invariant. -/
theorem alignStep_inv {lines : List (List (List Char))} {words : List Token}
    (hne : ∀ l ∈ lines, l ≠ []) {st : AlignState}
    (hinv : alignInv lines words st) (hlt : st.tokenIdx < words.length) :
    alignInv lines words (alignStep lines words st) := by
  obtain ⟨h1, h2, h3, h4⟩ := hinv
  have hnextline : ∀ i, i < lines.length → 0 < (lines.getD i []).length := by
    intro i hi
    exact List.length_pos.mpr (hne _ (getD_mem_of_lt hi))
  simp only [alignStep]
  split <;> (try dsimp only) <;> split_ifs <;>
    (refine ⟨?_, ?_, ?_, ?_⟩ <;> (try dsimp only) <;>
      first
        | exact h2
        | exact h3
        | rfl
        | omega
        | exact hnextline _ (by omega))

/-- One iteration of the merge loop strictly decreases the measure: the
token-consuming branch advances `tokenIdx`; the no-match branch grows
`tokenSub` by the current line-word's length (positive, since split words
are non-empty) while `tokenSub` stays below the token's text length. -/
theorem alignStep_measure {lines : List (List (List Char))} {words : List Token}
    (hwne : ∀ l ∈ lines, ∀ w ∈ l, w ≠ []) {st : AlignState}
    (hinv : alignInv lines words st) (hlt : st.tokenIdx < words.length) :
    alignMeasure words (alignStep lines words st) < alignMeasure words st := by
  obtain ⟨h1, h2, h3, h4⟩ := hinv
  have htok : (words.getD st.tokenIdx ⟨[], 0, 0, 0, 0⟩).text.length ≤ maxTokLen words :=
    text_length_le_maxTokLen (getD_mem_of_lt hlt)
  have hcur : 0 < (st.lineWords.getD st.wordIndex []).length := by
    have hmem1 : st.lineWords ∈ lines := by
      rw [h3]; exact getD_mem_of_lt h2
    exact List.length_pos.mpr (hwne _ hmem1 _ (getD_mem_of_lt h4))
  simp only [alignStep]
  split
  · -- the token was consumed: tokenIdx advances, tokenSub resets
    split_ifs
    all_goals
      simp only [alignMeasure]
      try dsimp only
      rw [show words.length - st.tokenIdx = (words.length - (st.tokenIdx + 1)) + 1 by omega,
        Nat.succ_mul]
      generalize (words.length - (st.tokenIdx + 1)) * (maxTokLen words + 2) = A
      omega
  · -- no match: tokenSub grows by the (positive) current word length
    rename_i heq
    have hnnil : (words.getD st.tokenIdx ⟨[], 0, 0, 0, 0⟩).text.drop st.tokenSub ≠ [] :=
      findSub_none_ne_nil heq
    have hts := List.length_pos.mpr hnnil
    rw [List.length_drop] at hts
    split_ifs
    all_goals
      simp only [alignMeasure]
      try dsimp only
      generalize (words.length - st.tokenIdx) * (maxTokLen words + 2) = A
      omega

/-- With fuel exceeding the measure, the merge loop exits only because the
loop condition is false: the token index has reached the token count. -/
theorem alignLoop_tokenIdx {lines : List (List (List Char))} {words : List Token}
    (hne : ∀ l ∈ lines, l ≠ []) (hwne : ∀ l ∈ lines, ∀ w ∈ l, w ≠ []) :
    ∀ (fuel : Nat) (st : AlignState), alignInv lines words st →
      alignMeasure words st < fuel →
      (alignLoop lines words fuel st).tokenIdx = words.length := by
  intro fuel
  induction fuel with
  | zero => intro st _ hm; omega
  | succ n ih =>
    intro st hinv hm
    simp only [alignLoop]
    split
    · exact ih _ (alignStep_inv hne hinv ‹_›)
        (by have := alignStep_measure hwne hinv ‹_›; omega)
    · have := hinv.1
      omega

/-- Claim C2: for every non-empty list of non-empty whitespace-stripped
lines (each line given by its whitespace-split word list, so every word is
non-empty and every line has at least one), and any finite token list, the
two-cursor merge loop of `blocks_from_native_pdf` terminates with every
token consumed: from `fuelBound` iterations onward the loop condition is
false and the token index equals the token-list length. -/
theorem merge_loop_consumes_all_tokens (lines : List (List (List Char))) (words : List Token)
    (hlines : lines ≠ []) (hne : ∀ l ∈ lines, l ≠ [])
    (hwne : ∀ l ∈ lines, ∀ w ∈ l, w ≠ []) :
    ∀ fuel : Nat, fuelBound words ≤ fuel →
      (alignLoop lines words fuel (alignInit lines)).tokenIdx = words.length := by
  intro fuel hfuel
  apply alignLoop_tokenIdx hne hwne
  · refine ⟨Nat.zero_le _, List.length_pos.mpr hlines, rfl, ?_⟩
    exact List.length_pos.mpr (hne _ (getD_mem_of_lt (List.length_pos.mpr hlines)))
  · have hmeas : alignMeasure words (alignInit lines)
        = words.length * (maxTokLen words + 2) + (maxTokLen words + 1) := by
      simp [alignMeasure, alignInit]
    rw [hmeas]
    have : fuelBound words = words.length * (maxTokLen words + 2) + (maxTokLen words + 2) := rfl
    omega

/-- Witness for C2 at a concrete page: single line "hi" (one word), single
token "hi"; the loop consumes the one token. -/
theorem merge_loop_consumes_all_tokens_witness :
    ([[['h', 'i']]] : List (List (List Char))) ≠ [] ∧
    (alignLoop [[['h', 'i']]] [⟨['h', 'i'], 0, 0, 0, 0⟩]
        (fuelBound [⟨['h', 'i'], 0, 0, 0, 0⟩])
        (alignInit [[['h', 'i']]])).tokenIdx = 1 :=
  ⟨by decide,
   merge_loop_consumes_all_tokens [[['h', 'i']]] [⟨['h', 'i'], 0, 0, 0, 0⟩]
     (by decide) (by decide) (by decide) _ le_rfl⟩

/-- A relationship entry of a Textract block (`relationship['Type']`,
`relationship['Ids']`); the `Type` key is not a legal Lean field name. -/
structure TextractRelationship where
  Type' : String
  Ids : List String
deriving DecidableEq, Repr

/-- A Textract block as consumed by `blocks_from_scanned_pdf`: id, type,
text, the `Geometry.BoundingBox` fields, and the optional `Relationships`
key (`none` embeds a missing key). -/
structure TextractBlock where
  Id : String
  BlockType : String
  Text : List Char
  bb : BoundingBox
  Relationships : Option (List TextractRelationship)
deriving DecidableEq, Repr

/-- The id-collecting loop of
`pre_human_task_lambda.textract_block_to_block_relationship`: skip
relationships whose type is not CHILD; on the first CHILD relationship,
take its ids and `break`. -/
def firstChildIds : List TextractRelationship → List String
  | [] => []
  | r :: rs => if r.Type' ≠ "CHILD" then firstChildIds rs else r.Ids

/-- `pre_human_task_lambda.textract_block_to_block_relationship`. -/
def textract_block_to_block_relationship (textract_relationship_list : List TextractRelationship) :
    Relationship :=
  ⟨firstChildIds textract_relationship_list, "CHILD"⟩

/-- `pre_human_task_lambda.textract_block_to_block`: builds a block from a
Textract block, then overwrites `Id` with the Textract id (foreign ids are
preserved — the minted id is discarded), `Relationships` with the converted
CHILD relationship (empty when the `Relationships` key is absent) and
`parentBlockIndex` with the given parent index. -/
def textract_block_to_block (page : Nat) (textract_block : TextractBlock) (index : Int)
    (parent_index : Int) : Block :=
  let g := Geometry.init textract_block.bb.Width textract_block.bb.Height
    textract_block.bb.Left textract_block.bb.Top
  { Block.init page textract_block.BlockType textract_block.Text index (some g) (-1) with
    Id := textract_block.Id
    Relationships :=
      match textract_block.Relationships with
      | none => []
      | some rels => [textract_block_to_block_relationship rels]
    parentBlockIndex := parent_index }

/-- The dictionary comprehension
`{b['Id']: b for b in textract_blocks if b['BlockType'] == 'WORD'}` of
`blocks_from_scanned_pdf`, embedded as a lookup (later duplicates overwrite
earlier ones, hence the reversed search); a failed lookup embeds Python's
`KeyError`. -/
def wordMapLookup (textract_blocks : List TextractBlock) (id : String) : Option TextractBlock :=
  ((textract_blocks.filter (fun b => b.BlockType == "WORD")).reverse).find? (fun b => b.Id == id)

/-- The inner loop of `blocks_from_scanned_pdf` over a LINE block's CHILD
ids: each id is looked up in the WORD map (`KeyError` propagates as an
error) and converted with the line's index as parent; the running block
index threads through. -/
def wordBlocksForIds (page : Nat) (textract_blocks : List TextractBlock) (line_index : Int) :
    List String → Int → Except Unit (List Block × Int)
  | [], index => .ok ([], index)
  | id :: ids, index =>
    match wordMapLookup textract_blocks id with
    | none => .error ()
    | some wtb =>
      match wordBlocksForIds page textract_blocks line_index ids (index + 1) with
      | .error e => .error e
      | .ok (rest, index') =>
        .ok (textract_block_to_block page wtb (index + 1) line_index :: rest, index')

/-- The outer loop of `blocks_from_scanned_pdf` over the LINE blocks: each
LINE block is converted (parent index −1), then its WORD children are
generated from the first relationship's ids when the relationship list is
non-empty. -/
def convertLines (page : Nat) (textract_blocks : List TextractBlock) :
    List TextractBlock → Int → Except Unit (List Block)
  | [], _ => .ok []
  | tb :: rest, index =>
    let line_block := textract_block_to_block page tb (index + 1) (-1)
    let line_index := index + 1
    match line_block.Relationships with
    | [] =>
      match convertLines page textract_blocks rest (index + 1) with
      | .error e => .error e
      | .ok more => .ok (line_block :: more)
    | rel :: _ =>
      match wordBlocksForIds page textract_blocks line_index rel.Ids (index + 1) with
      | .error e => .error e
      | .ok (wbs, index') =>
        match convertLines page textract_blocks rest index' with
        | .error e => .error e
        | .ok more => .ok (line_block :: (wbs ++ more))

/-- The conversion body of `blocks_from_scanned_pdf` (after a successful
OCR call): filter the LINE blocks and run the conversion loop with the
block index starting at −1. -/
def convert_textract_blocks (page : Nat) (textract_blocks : List TextractBlock) :
    Except Unit (List Block) :=
  convertLines page textract_blocks
    (textract_blocks.filter (fun b => b.BlockType == "LINE")) (-1)

/-- `pre_human_task_lambda.blocks_from_scanned_pdf`: the OCR call and the
conversion run inside `try`; any exception (OCR service failure, malformed
response, missing WORD id) is caught and an empty block list is returned.
`ocr_result` embeds `textract_client.detect_document_text(...)["Blocks"]`
(`.error` embeds a raised exception). -/
def blocks_from_scanned_pdf (page_number : Nat)
    (ocr_result : Except Unit (List TextractBlock)) : List Block :=
  match ocr_result with
  | .error _ => []
  | .ok textract_blocks =>
    match convert_textract_blocks page_number textract_blocks with
    | .error _ => []
    | .ok blocks => blocks

/-- Claim C6: when the OCR service call raises (any exception at the
collaborator boundary), `blocks_from_scanned_pdf` returns the empty block
list — the exception does not propagate past its boundary (the embedding's
return type is a plain list, not an `Except`), and no retry occurs. -/
theorem scanned_pdf_ocr_failure_empty (page_number : Nat) :
    blocks_from_scanned_pdf page_number (.error ()) = [] := rfl

/-- The three-region OCR response of claim C7: one LINE "L1" with CHILD ids
["W1", "W2"] and two WORD regions "W1", "W2". -/
def c7TextractBlocks : List TextractBlock :=
  [⟨"L1", "LINE", ['h', 'i', ' ', 'y', 'o'], ⟨1, 1, 0, 0⟩,
      some [⟨"CHILD", ["W1", "W2"]⟩]⟩,
   ⟨"W1", "WORD", ['h', 'i'], ⟨1/2, 1, 0, 0⟩, none⟩,
   ⟨"W2", "WORD", ['y', 'o'], ⟨1/2, 1, 1/2, 0⟩, none⟩]

/-- Claim C7: for the region set with one LINE "L1" (children "W1", "W2")
and two WORDs, the converter emits blocks with ids "L1", "W1", "W2"
verbatim (foreign OCR ids preserved, not freshly minted), and both WORD
blocks' parent-index equals the LINE block's local index (0). -/
theorem ocr_converter_preserves_foreign_ids :
    (blocks_from_scanned_pdf 1 (.ok c7TextractBlocks)).map Block.Id = ["L1", "W1", "W2"]
    ∧ ((blocks_from_scanned_pdf 1 (.ok c7TextractBlocks)).filter
        (fun b => b.BlockType == "WORD")).map Block.parentBlockIndex = [0, 0]
    ∧ ((blocks_from_scanned_pdf 1 (.ok c7TextractBlocks)).filter
        (fun b => b.BlockType == "LINE")).map Block.blockIndex = [0] := by
  refine ⟨by decide, by decide, by decide⟩

/-- In a relationship list whose first CHILD entry is `c1`, the collected
ids are exactly `c1.Ids`, whatever follows. -/
theorem firstChildIds_first (pre : List TextractRelationship) (c1 : TextractRelationship)
    (rest : List TextractRelationship) (hpre : ∀ r ∈ pre, r.Type' ≠ "CHILD")
    (hc1 : c1.Type' = "CHILD") :
    firstChildIds (pre ++ c1 :: rest) = c1.Ids := by
  induction pre with
  | nil => simp [firstChildIds, hc1]
  | cons r rs ih =>
    have hr : r.Type' ≠ "CHILD" := hpre r (by simp)
    simp only [List.cons_append, firstChildIds, if_pos hr]
    exact ih (fun x hx => hpre x (by simp [hx]))

/-- Claim C10: when a Textract LINE block's relationship list contains more
than one CHILD relationship, only the first CHILD relationship's id list
survives into the produced block's single CHILD relationship — ids of any
later CHILD relationship are dropped — and (second conjunct, concrete
two-CHILD scenario) the dropped ids produce no WORD blocks: with
relationships CHILD ["W1"] then CHILD ["W2"], only "W1" is emitted. -/
theorem ocr_relationship_uses_first_child_only (page : Nat) (index parent_index : Int)
    (tb : TextractBlock) (pre : List TextractRelationship) (c1 : TextractRelationship)
    (rest : List TextractRelationship) (hpre : ∀ r ∈ pre, r.Type' ≠ "CHILD")
    (hc1 : c1.Type' = "CHILD") (htb : tb.Relationships = some (pre ++ c1 :: rest)) :
    (textract_block_to_block page tb index parent_index).Relationships
      = [⟨c1.Ids, "CHILD"⟩]
    ∧ (blocks_from_scanned_pdf 1
        (.ok [⟨"L1", "LINE", ['h', 'i'], ⟨1, 1, 0, 0⟩,
                some [⟨"CHILD", ["W1"]⟩, ⟨"CHILD", ["W2"]⟩]⟩,
              ⟨"W1", "WORD", ['h'], ⟨1/2, 1, 0, 0⟩, none⟩,
              ⟨"W2", "WORD", ['i'], ⟨1/2, 1, 1/2, 0⟩, none⟩])).map Block.Id
      = ["L1", "W1"] := by
  constructor
  · simp only [textract_block_to_block, htb, textract_block_to_block_relationship]
    rw [firstChildIds_first pre c1 rest hpre hc1]
  · decide

/-- Witness for C10 at a concrete block with a non-CHILD relationship, then
two CHILD relationships. -/
theorem ocr_relationship_uses_first_child_only_witness :
    (∀ r ∈ ([⟨"MERGED_CELL", ["x"]⟩] : List TextractRelationship), r.Type' ≠ "CHILD")
    ∧ (textract_block_to_block 1
        ⟨"L9", "LINE", ['a'], ⟨1, 1, 0, 0⟩,
          some ([⟨"MERGED_CELL", ["x"]⟩] ++ ⟨"CHILD", ["W7"]⟩ :: [⟨"CHILD", ["W8"]⟩])⟩
        0 (-1)).Relationships = [⟨["W7"], "CHILD"⟩] :=
  ⟨by decide,
   (ocr_relationship_uses_first_child_only 1 0 (-1)
      ⟨"L9", "LINE", ['a'], ⟨1, 1, 0, 0⟩,
        some ([⟨"MERGED_CELL", ["x"]⟩] ++ ⟨"CHILD", ["W7"]⟩ :: [⟨"CHILD", ["W8"]⟩])⟩
      [⟨"MERGED_CELL", ["x"]⟩] ⟨"CHILD", ["W7"]⟩ [⟨"CHILD", ["W8"]⟩]
      (by decide) rfl rfl).1⟩

/-- `constants/general.py`: threshold 0.25. -/
def TOTAL_IMAGE_SIZE_TO_PAGE_SIZE_RATIO_THRESHOLD : ℚ := 1/4

/-- `pre_human_task_lambda.is_scanned_pdf`: with at least one embedded
image, compare the summed image area over the page area against the
threshold (inclusive `>=`); with no images, the page is not scanned.
`images` lists each image's (width, height). -/
def is_scanned_pdf (images : List (ℚ × ℚ)) (page_width page_height : ℚ) : Bool :=
  let page_size := page_width * page_height
  if 1 ≤ images.length then
    let image_size_total := images.foldl (fun acc image => acc + image.1 * image.2) 0
    decide (image_size_total / page_size ≥ TOTAL_IMAGE_SIZE_TO_PAGE_SIZE_RATIO_THRESHOLD)
  else
    false

/-- The per-page data read from pdfplumber inside the `try` block of
`get_pdf_blocks`: page dimensions, the embedded-image inventory, and the
results of `extract_text()` (as non-empty stripped lines, each split into
its word list) and `extract_words()`.  The two extraction results are
`Except` because those pdfplumber calls may raise. -/
structure PdfPage where
  width : ℚ
  height : ℚ
  images : List (ℚ × ℚ)
  extractText : Except Unit (List (List (List Char)))
  extractWords : Except Unit (List Token)

/-- The native branch of `get_pdf_blocks`: run the extractions (either may
raise) and align them with `blocks_from_native_pdf`. -/
def native_pdf_path (page_num : Nat) (p : PdfPage) : Except Unit (List Block) :=
  match p.extractText with
  | .error e => .error e
  | .ok lines =>
    match p.extractWords with
    | .error e => .error e
    | .ok words => .ok (blocks_from_native_pdf page_num lines words p.width p.height)

/-- `pre_human_task_lambda.get_pdf_blocks`: open the page (may raise); on
the textract-only override or an image-dominated page, take the OCR path
(`is_native_pdf` stays false); otherwise attempt the native path and set
`is_native_pdf` true only after it returns; any exception inside the `try`
(page open, extraction) is caught and the OCR path is taken with
`is_native_pdf` still false.  Returns `(blocks, is_native_pdf)`. -/
def get_pdf_blocks (use_textract_only : Bool) (page_num : Nat)
    (page_result : Except Unit PdfPage) (ocr_result : Except Unit (List TextractBlock)) :
    List Block × Bool :=
  match page_result with
  | .error _ => (blocks_from_scanned_pdf page_num ocr_result, false)
  | .ok page =>
    if use_textract_only || is_scanned_pdf page.images page.width page.height then
      (blocks_from_scanned_pdf page_num ocr_result, false)
    else
      match native_pdf_path page_num page with
      | .ok blocks => (blocks, true)
      | .error _ => (blocks_from_scanned_pdf page_num ocr_result, false)

/-- Claim C4: if the native-text path raises any exception (page parse
failure in `extract_text`/`extract_words`), `get_pdf_blocks` catches it,
routes the page to the OCR path, and returns the used-native-extraction
flag as false — even though OCR was not requested (`use_textract_only` is
false and the page is not image-dominated). -/
theorem native_parse_failure_falls_back_to_ocr (page_num : Nat) (p : PdfPage)
    (ocr_result : Except Unit (List TextractBlock))
    (hscan : is_scanned_pdf p.images p.width p.height = false)
    (hfail : native_pdf_path page_num p = .error ()) :
    get_pdf_blocks false page_num (.ok p) ocr_result
      = (blocks_from_scanned_pdf page_num ocr_result, false) := by
  simp [get_pdf_blocks, hscan, hfail]

/-- Witness for C4: a page whose `extract_text` raises. -/
theorem native_parse_failure_falls_back_to_ocr_witness :
    is_scanned_pdf ([] : List (ℚ × ℚ)) 10 10 = false ∧
    get_pdf_blocks false 1 (.ok ⟨10, 10, [], .error (), .ok []⟩) (.ok c7TextractBlocks)
      = (blocks_from_scanned_pdf 1 (.ok c7TextractBlocks), false) :=
  ⟨by decide,
   native_parse_failure_falls_back_to_ocr 1 ⟨10, 10, [], .error (), .ok []⟩
     (.ok c7TextractBlocks) (by decide) rfl⟩

/-- Claim C8: on a 10-by-10 page with a single embedded image of width 20
and height 1.25 (image area 25, ratio exactly 0.25), the heuristic
classifies the page as image-dominated (the comparison is inclusive) and
`get_pdf_blocks` routes the page to the OCR path with the native flag
false, even though the native path is available. -/
theorem ratio_threshold_inclusive_routes_to_ocr :
    is_scanned_pdf [((20 : ℚ), (5/4 : ℚ))] 10 10 = true
    ∧ get_pdf_blocks false 1
        (.ok ⟨10, 10, [((20 : ℚ), (5/4 : ℚ))],
          .ok [[['h', 'i']]], .ok [⟨['h', 'i'], 0, 0, 0, 0⟩]⟩)
        (.ok c7TextractBlocks)
      = (blocks_from_scanned_pdf 1 (.ok c7TextractBlocks), false) := by
  have h1 : is_scanned_pdf [((20 : ℚ), (5/4 : ℚ))] 10 10 = true := by
    simp only [is_scanned_pdf, TOTAL_IMAGE_SIZE_TO_PAGE_SIZE_RATIO_THRESHOLD,
      List.length_cons, List.length_nil, List.foldl, decide_eq_true_eq, ge_iff_le,
      if_pos (by norm_num : (1 : Nat) ≤ 0 + 1)]
    norm_num
  refine ⟨h1, ?_⟩
  simp [get_pdf_blocks, h1]

/-- A field value of a serialized block record (the JSON value shapes that
`json.dumps(..., default=JSONHandler)` recurses into for a `Block`). -/
inductive FieldVal where
  | vStr : String → FieldVal
  | vChars : List Char → FieldVal
  | vInt : Int → FieldVal
  | vNat : Nat → FieldVal
  | vGeom : Option Geometry → FieldVal
  | vRels : List Relationship → FieldVal
deriving DecidableEq, Repr

/-- `DictionaryClass.reprJSON` for a `Block`: `self.__dict__` as an ordered
association list — every attribute `Block.__init__` assigns, in insertion
order; the Textract path reassigns `Id`, `Relationships` and
`parentBlockIndex` but adds and removes no keys. -/
def Block.reprJSON (b : Block) : List (String × FieldVal) :=
  [("BlockType", .vStr b.BlockType),
   ("Id", .vStr b.Id),
   ("Text", .vChars b.Text),
   ("Geometry", .vGeom b.Geometry),
   ("Relationships", .vRels b.Relationships),
   ("Page", .vNat b.Page),
   ("parentBlockIndex", .vInt b.parentBlockIndex),
   ("blockIndex", .vInt b.blockIndex)]

/-- The block-list serialization performed by
`pre_human_task_lambda.output_pdf_temp_file_to_s3` for list content:
`json.dumps(content, default=JSONHandler)` renders each block through
`reprJSON`, i.e. each emitted record holds exactly the keys of
`Block.reprJSON`. -/
def serialize_blocks (blocks : List Block) : List (List (String × FieldVal)) :=
  blocks.map Block.reprJSON

/-- `annotation_consolidation_lambda.remove_block_indices_from_blocks`:
deletes the `parentBlockIndex` and `blockIndex` keys from every block
record (a later stage, not part of the pre-human emission). -/
def remove_block_indices_from_blocks (blocks : List (List (String × FieldVal))) :
    List (List (String × FieldVal)) :=
  blocks.map (fun b =>
    b.filter (fun kv => !(kv.1 == "parentBlockIndex" || kv.1 == "blockIndex")))

/-- Claim C5 (counterexample): the block records serialized by the
pre-human lambda's `output_pdf_temp_file_to_s3` DO carry the two
construction-only integers — `reprJSON` returns the full `__dict__`, so
the keys `parentBlockIndex` and `blockIndex` appear in the emitted record
of this concrete block, contradicting the claim that they are stripped
before emission. -/
theorem serialized_block_keeps_indices :
    "parentBlockIndex"
        ∈ ((serialize_blocks [Block.init 1 "LINE" ['h', 'i'] 0 none (-1)]).getD 0 []).map
            Prod.fst
    ∧ "blockIndex"
        ∈ ((serialize_blocks [Block.init 1 "LINE" ['h', 'i'] 0 none (-1)]).getD 0 []).map
            Prod.fst := by
  refine ⟨by decide, by decide⟩

/-- Claim C5 (amended): the pre-human emission keeps both construction-only
indices in every serialized block record; they are removed only later, by
`remove_block_indices_from_blocks` in the annotation consolidation lambda,
after which no record carries either key. -/
theorem indices_removed_only_at_consolidation (blocks : List Block) :
    (∀ r ∈ serialize_blocks blocks,
      "parentBlockIndex" ∈ r.map Prod.fst ∧ "blockIndex" ∈ r.map Prod.fst)
    ∧ (∀ r ∈ remove_block_indices_from_blocks (serialize_blocks blocks),
      "parentBlockIndex" ∉ r.map Prod.fst ∧ "blockIndex" ∉ r.map Prod.fst) := by
  constructor
  · intro r hr
    obtain ⟨b, _, rfl⟩ := List.mem_map.mp hr
    refine ⟨?_, ?_⟩ <;> simp [Block.reprJSON]
  · intro r hr
    obtain ⟨r0, _, rfl⟩ := List.mem_map.mp hr
    constructor <;>
      · intro hmem
        obtain ⟨kv, hkv, hfst⟩ := List.mem_map.mp hmem
        have := List.of_mem_filter hkv
        simp [hfst] at this

/-- Well-formedness of a `Geometry`: its polygon is exactly the four
corners of its bounding box (holds by construction for `Geometry.init`). -/
def Geometry.wf (g : Geometry) : Prop :=
  g.Polygon = get_points g.BoundingBox.Width g.BoundingBox.Height
    g.BoundingBox.Left g.BoundingBox.Top

/-- `Geometry.init` is well-formed. -/
theorem Geometry.init_wf (width height left top : ℚ) :
    (Geometry.init width height left top).wf := rfl

/-- `extend_polygon` of two well-formed geometries' polygons rebuilds the
boxes losslessly (corner 2 minus corner 0 recovers width and height), so it
equals the four corners of the extended bounding box. -/
theorem extend_polygon_of_wf {g1 g2 : Geometry} (h1 : g1.wf) (h2 : g2.wf) :
    extend_polygon g1.Polygon g2.Polygon
      = get_points (extend_bounding_box g1.BoundingBox g2.BoundingBox).Width
          (extend_bounding_box g1.BoundingBox g2.BoundingBox).Height
          (extend_bounding_box g1.BoundingBox g2.BoundingBox).Left
          (extend_bounding_box g1.BoundingBox g2.BoundingBox).Top := by
  rw [Geometry.wf] at h1 h2
  rw [extend_polygon, h1, h2]
  simp only [get_points, List.getD_cons_zero, List.getD_cons_succ]
  have hbb1 : (⟨g1.BoundingBox.Left + g1.BoundingBox.Width - g1.BoundingBox.Left,
      g1.BoundingBox.Top + g1.BoundingBox.Height - g1.BoundingBox.Top,
      g1.BoundingBox.Left, g1.BoundingBox.Top⟩ : BoundingBox) = g1.BoundingBox := by
    have : g1.BoundingBox.Left + g1.BoundingBox.Width - g1.BoundingBox.Left
        = g1.BoundingBox.Width := by ring
    have h2' : g1.BoundingBox.Top + g1.BoundingBox.Height - g1.BoundingBox.Top
        = g1.BoundingBox.Height := by ring
    rw [this, h2']
  have hbb2 : (⟨g2.BoundingBox.Left + g2.BoundingBox.Width - g2.BoundingBox.Left,
      g2.BoundingBox.Top + g2.BoundingBox.Height - g2.BoundingBox.Top,
      g2.BoundingBox.Left, g2.BoundingBox.Top⟩ : BoundingBox) = g2.BoundingBox := by
    have : g2.BoundingBox.Left + g2.BoundingBox.Width - g2.BoundingBox.Left
        = g2.BoundingBox.Width := by ring
    have h2' : g2.BoundingBox.Top + g2.BoundingBox.Height - g2.BoundingBox.Top
        = g2.BoundingBox.Height := by ring
    rw [this, h2']
  rw [hbb1, hbb2]

/-- `extend_geometry` preserves well-formedness and extends the bounding
box by union. -/
theorem extend_geometry_wf {g1 g2 : Geometry} (h1 : g1.wf) (h2 : g2.wf) :
    (extend_geometry g1 g2).wf
    ∧ (extend_geometry g1 g2).BoundingBox = extend_bounding_box g1.BoundingBox g2.BoundingBox := by
  refine ⟨?_, rfl⟩
  show (extend_geometry g1 g2).Polygon = _
  rw [show (extend_geometry g1 g2).Polygon = extend_polygon g1.Polygon g2.Polygon from rfl,
    extend_polygon_of_wf h1 h2]
  rfl

/-- Claim C9: for any well-formed geometry extended by any non-empty
sequence of well-formed geometries, the final polygon is exactly the four
corners of the final bounding box in the fixed order top-left, top-right,
bottom-right, bottom-left — and that bounding box is the fold of the
box union, i.e. the polygon is regenerated from the unioned bounding box,
not an independent point-set union. -/
theorem polygon_is_corners_of_unioned_box (g : Geometry) (gs : List Geometry)
    (hg : g.wf) (hgs : ∀ x ∈ gs, x.wf) (hne : gs ≠ []) :
    (gs.foldl extend_geometry g).Polygon
      = [⟨(gs.foldl extend_geometry g).BoundingBox.Left,
          (gs.foldl extend_geometry g).BoundingBox.Top⟩,
         ⟨(gs.foldl extend_geometry g).BoundingBox.Left
            + (gs.foldl extend_geometry g).BoundingBox.Width,
          (gs.foldl extend_geometry g).BoundingBox.Top⟩,
         ⟨(gs.foldl extend_geometry g).BoundingBox.Left
            + (gs.foldl extend_geometry g).BoundingBox.Width,
          (gs.foldl extend_geometry g).BoundingBox.Top
            + (gs.foldl extend_geometry g).BoundingBox.Height⟩,
         ⟨(gs.foldl extend_geometry g).BoundingBox.Left,
          (gs.foldl extend_geometry g).BoundingBox.Top
            + (gs.foldl extend_geometry g).BoundingBox.Height⟩]
    ∧ (gs.foldl extend_geometry g).BoundingBox
      = gs.foldl (fun bb x => extend_bounding_box bb x.BoundingBox) g.BoundingBox := by
  clear hne
  have main : ∀ (gs : List Geometry) (g : Geometry), g.wf → (∀ x ∈ gs, x.wf) →
      (gs.foldl extend_geometry g).wf
      ∧ (gs.foldl extend_geometry g).BoundingBox
        = gs.foldl (fun bb x => extend_bounding_box bb x.BoundingBox) g.BoundingBox := by
    intro gs
    induction gs with
    | nil => intro g hg _; exact ⟨hg, rfl⟩
    | cons x xs ih =>
      intro g hg hxs
      have hx : x.wf := hxs x (by simp)
      obtain ⟨hwf, hbb⟩ := extend_geometry_wf hg hx
      obtain ⟨hwf', hbb'⟩ := ih (extend_geometry g x) hwf (fun y hy => hxs y (by simp [hy]))
      refine ⟨hwf', ?_⟩
      simp only [List.foldl_cons]
      rw [hbb', hbb]
  obtain ⟨hwf, hbb⟩ := main gs g hg hgs
  exact ⟨hwf, hbb⟩

/-- Witness for C9: a unit square extended by one offset rectangle. -/
theorem polygon_is_corners_of_unioned_box_witness :
    (Geometry.init 1 1 0 0).wf
    ∧ (([Geometry.init 2 3 1 1].foldl extend_geometry (Geometry.init 1 1 0 0))).BoundingBox
      = [Geometry.init 2 3 1 1].foldl (fun bb x => extend_bounding_box bb x.BoundingBox)
          (Geometry.init 1 1 0 0).BoundingBox :=
  ⟨Geometry.init_wf 1 1 0 0,
   (polygon_is_corners_of_unioned_box (Geometry.init 1 1 0 0) [Geometry.init 2 3 1 1]
      (Geometry.init_wf 1 1 0 0)
      (by intro x hx; rw [List.mem_singleton.mp hx]; exact Geometry.init_wf 2 3 1 1)
      (by simp)).2⟩
